import Mathlib

/-!
The openapi-operator: reconciliation of an `OpenapiService` into an Istio `WasmPlugin`.

A shallow embedding of `internal/controller/openapiservice_controller.go` and of the
types of `api/v1/openapiservice_types.go`.

* Go strings are embedded as `String`.  `path.Clean` inspects only the ASCII bytes `/` and
  `.`, which never occur inside a multi-byte UTF-8 sequence, so working on characters and
  working on bytes agree on valid UTF-8 text.
* The API server behind `client.Client` is embedded as a `Store` (two finite maps keyed by
  namespace and name) together with `Faults`, the failures the server answers the calls of
  one run with.  A failed call leaves the store as it was.  A served delete removes an
  object without finalizers and keeps an object with finalizers, marked for deletion.
  Server-generated metadata (uid, resource version, generation, creation time) is not part
  of the model; of `metadata.deletionTimestamp` the model keeps whether it is set.
  The server removes an object marked for deletion as soon as its finalizers are empty, so
  a real store holds no object that is marked and has none; the model puts no such object
  into a store itself and treats one given to it like any other object.
* Every controller function returns a `Run`: its Go result, the store afterwards and the
  list of client calls it issued, in order.
-/

namespace GoPath

/-- Modelled from the spec: part of `path.Clean` of the Go standard library (not under
src/), the inner loop of its `..` case:
`for out.w > dotdot && out.index(out.w) != '/' { out.w-- }`, started at `w`; returns the
final write index. -/
def backtrackLoop (buf : List Char) (dotdot : Nat) : Nat → Nat
  | 0 => 0
  | w + 1 =>
    if dotdot < w + 1 ∧ buf[w + 1]? ≠ some '/' then backtrackLoop buf dotdot w else w + 1

/-- Modelled from the spec: part of `path.Clean` of the Go standard library (not under
src/), its main loop `for r < n { switch ... }`.  `rest` is `path[r:]`, `out` is
the written part of the lazy buffer (`out.w = out.length`), `dotdot` is the index where `..`
must stop.  Every iteration consumes at least one byte of `rest`, so `rest.length` is enough
fuel (`cleanLoop_fuel`). -/
def cleanLoop (rooted : Bool) : Nat → List Char → List Char → Nat → List Char
  | 0, _, out, _ => out
  | _ + 1, [], out, _ => out
  | fuel + 1, c :: t, out, dotdot =>
    if c = '/' then
      -- empty path element
      cleanLoop rooted fuel t out dotdot
    else if c = '.' ∧ (t = [] ∨ t.head? = some '/') then
      -- . element
      cleanLoop rooted fuel t out dotdot
    else if c = '.' ∧ t.head? = some '.' ∧ (t.tail = [] ∨ t.tail.head? = some '/') then
      -- .. element: remove to last /
      if dotdot < out.length then
        cleanLoop rooted fuel t.tail
          (out.take (backtrackLoop out dotdot (out.length - 1))) dotdot
      else if rooted = false then
        let out1 := (if 0 < out.length then out ++ ['/'] else out) ++ ['.', '.']
        cleanLoop rooted fuel t.tail out1 out1.length
      else
        cleanLoop rooted fuel t.tail out dotdot
    else
      -- real path element: add slash if needed, copy element
      let out1 :=
        if (rooted = true ∧ out.length ≠ 1) ∨ (rooted = false ∧ out.length ≠ 0) then
          out ++ ['/']
        else out
      cleanLoop rooted fuel ((c :: t).dropWhile (fun x => x != '/'))
        (out1 ++ (c :: t).takeWhile (fun x => x != '/')) dotdot

/-- Modelled from the spec: the Path Transformer "joins `/`, prefix and rawPath, collapsing
redundant separators and producing a single absolute path"; the controller does so with
`path.Join` of the Go standard library, which is not under src/.  `Clean` follows the
library's algorithm: the empty path gives `.`; a rooted path starts the buffer with `/`;
then the loop `cleanLoop` drops empty and `.` elements, backtracks on `..` and copies
every other element; an empty buffer gives `.`. -/
def Clean (path : String) : String :=
  if path = "" then "."
  else
    let p := path.data
    let out :=
      if p.head? = some '/' then cleanLoop true p.length p.tail ['/'] 1
      else cleanLoop false p.length p [] 0
    if out.length = 0 then "." else String.mk out

/-- Modelled from the spec: `path.Join` of the Go standard library (not under src/): the
empty elements in front are ignored, the remaining elements are joined with `/` and the
result is cleaned; an argument list without a non-empty element gives the empty string. -/
def Join : List String → String
  | [] => ""
  | e :: rest => if e = "" then Join rest else Clean ("/".intercalate (e :: rest))

/-- The written buffer of a rooted path: it starts with `/`, no two `/` are adjacent, and
it ends with `/` only when it is the root itself. -/
def RootedBuf (out : List Char) : Prop :=
  out.head? = some '/' ∧ out.Chain' (fun a b => ¬(a = '/' ∧ b = '/')) ∧
    (out.getLast? = some '/' → out = ['/'])

end GoPath

namespace Operator

/-! ## api/v1: the parent resource -/

/-- Go `Selector`; the `matchLabels` map as an association list. -/
structure Selector where
  MatchLabels : List (String × String)
  deriving DecidableEq

/-- Go `OpenAPISpec`.  `Paths` is `map[string]PathItem` with `PathItem` the empty struct:
only the keys carry information.  They are kept in the order in which `range` visits them
in a run; no property below depends on that order. -/
structure OpenAPISpec where
  Paths : List String
  deriving DecidableEq

/-- Go `OpenapiServiceSpec`. -/
structure OpenapiServiceSpec where
  Selector : Selector
  Prefix : String
  OpenAPI : OpenAPISpec
  deriving DecidableEq

/-- Go `OpenapiServiceStatus`. -/
structure OpenapiServiceStatus where
  WasmPluginName : String
  deriving DecidableEq

/-- Go `OpenapiService`: the fields of `ObjectMeta` the controller reads, spec and status. -/
structure OpenapiService where
  Name : String
  Namespace : String
  UID : String
  Spec : OpenapiServiceSpec
  Status : OpenapiServiceStatus
  deriving DecidableEq

/-! ## The child resource -/

/-- The `metav1.OwnerReference` that `SetControllerReference` attaches. -/
structure OwnerReference where
  APIVersion : String
  Kind : String
  Name : String
  UID : String
  Controller : Bool
  BlockOwnerDeletion : Bool
  deriving DecidableEq

/-- One entry of `pluginConfig.services`: `name` and the `paths` map used as a set. -/
structure ServiceEntry where
  name : String
  paths : Finset String
  deriving DecidableEq

/-- The `pluginConfig` block. -/
structure PluginConfig where
  cacheSize : Nat
  services : List ServiceEntry
  deriving DecidableEq

/-- The value the controller stores under `"spec"`. -/
structure WasmPluginSpec where
  url : String
  imagePullPolicy : String
  phase : String
  failStrategy : String
  priority : Nat
  selector : Selector
  pluginConfig : PluginConfig
  deriving DecidableEq

/-- The `"spec"` entry of an unstructured object: one written by this controller, or any
other content (kept as text), which the controller never inspects. -/
inductive SpecValue where
  | plugin (s : WasmPluginSpec)
  | foreign (raw : String)
  deriving DecidableEq

/-- An `unstructured.Unstructured`: the top-level entries of `Object`.  `finalizers` is
`metadata.finalizers`, `deletionTimestamp` tells whether `metadata.deletionTimestamp` is
set, `otherFields` holds every entry besides the ones named here (annotations, status,
...). -/
structure Unstructured where
  apiVersion : String
  kind : String
  Name : String
  Namespace : String
  ownerReferences : List OwnerReference
  labels : List (String × String)
  finalizers : List String
  deletionTimestamp : Bool
  otherFields : List (String × String)
  spec : Option SpecValue
  deriving DecidableEq

/-! ## The store behind `client.Client` -/

/-- Go `types.NamespacedName` as the pair (namespace, name). -/
abbrev NamespacedName := String × String

/-- The objects of the two kinds the controller touches. -/
structure Store where
  services : NamespacedName → Option OpenapiService
  plugins : NamespacedName → Option Unstructured

/-- Every object is stored under its own namespace and name. -/
def Store.WF (st : Store) : Prop :=
  (∀ k s, st.services k = some s → (s.Namespace, s.Name) = k) ∧
  (∀ k o, st.plugins k = some o → (o.Namespace, o.Name) = k)

/-- The `metav1.StatusReason` of a failed call. -/
inductive StatusReason where
  | NotFound | AlreadyExists | Conflict | Forbidden | Invalid | Timeout | InternalError
  deriving DecidableEq

/-- Go `errors.IsNotFound`. -/
def IsNotFound (e : StatusReason) : Bool := e = StatusReason.NotFound

/-- The failures of one run: for each call the controller can issue, the error the server
answers it with instead of serving it (`none`: the call is served). -/
structure Faults where
  getService : Option StatusReason
  deletePlugin : Option StatusReason
  setControllerReference : Bool
  getPlugin : Option StatusReason
  createPlugin : Option StatusReason
  updatePlugin : Option StatusReason
  updateStatus : Option StatusReason
  deriving DecidableEq

/-- The run in which every call is served. -/
def noFaults : Faults :=
  ⟨none, none, false, none, none, none, none⟩

/-- A client call as the store sees it. -/
inductive Call where
  | getService (key : NamespacedName)
  | deletePlugin (key : NamespacedName)
  | getPlugin (key : NamespacedName)
  | createPlugin (obj : Unstructured)
  | updatePlugin (obj : Unstructured)
  | updateStatus (svc : OpenapiService)
  deriving DecidableEq

/-- `Get` of an `OpenapiService`. -/
def Store.getService (f : Faults) (st : Store) (key : NamespacedName) :
    Except StatusReason OpenapiService :=
  match f.getService with
  | some e => .error e
  | none =>
    match st.services key with
    | some s => .ok s
    | none => .error .NotFound

/-- `Get` of a `WasmPlugin`. -/
def Store.getPlugin (f : Faults) (st : Store) (key : NamespacedName) :
    Except StatusReason Unstructured :=
  match f.getPlugin with
  | some e => .error e
  | none =>
    match st.plugins key with
    | some o => .ok o
    | none => .error .NotFound

/-- What a served `Delete` leaves at `key`: nothing when the object is absent or carries no
finalizer; an object with finalizers stays stored with its deletion timestamp set. -/
def Store.afterDelete (st : Store) (key : NamespacedName) : Option Unstructured :=
  match st.plugins key with
  | some o => if o.finalizers = [] then none else some { o with deletionTimestamp := true }
  | none => none

/-- `Delete` of a `WasmPlugin`: not-found when absent; a present object is removed, or,
when it carries finalizers, kept and marked for deletion; both answer without error. -/
def Store.deletePlugin (f : Faults) (st : Store) (key : NamespacedName) :
    Except StatusReason Unit × Store :=
  match f.deletePlugin with
  | some e => (.error e, st)
  | none =>
    match st.plugins key with
    | some _ =>
      (.ok (), { st with plugins := Function.update st.plugins key (st.afterDelete key) })
    | none => (.error .NotFound, st)

/-- `Create` of a `WasmPlugin`: already-exists when present. -/
def Store.createPlugin (f : Faults) (st : Store) (obj : Unstructured) :
    Except StatusReason Unit × Store :=
  match f.createPlugin with
  | some e => (.error e, st)
  | none =>
    match st.plugins (obj.Namespace, obj.Name) with
    | some _ => (.error .AlreadyExists, st)
    | none =>
      (.ok (),
        { st with plugins := Function.update st.plugins (obj.Namespace, obj.Name) (some obj) })

/-- `Update` of a `WasmPlugin`: replaces the stored object; not-found when absent. -/
def Store.updatePlugin (f : Faults) (st : Store) (obj : Unstructured) :
    Except StatusReason Unit × Store :=
  match f.updatePlugin with
  | some e => (.error e, st)
  | none =>
    match st.plugins (obj.Namespace, obj.Name) with
    | some _ =>
      (.ok (),
        { st with plugins := Function.update st.plugins (obj.Namespace, obj.Name) (some obj) })
    | none => (.error .NotFound, st)

/-- `Status().Update` of an `OpenapiService`: writes only the status sub-resource of the
stored object; not-found when absent. -/
def Store.updateStatus (f : Faults) (st : Store) (svc : OpenapiService) :
    Except StatusReason Unit × Store :=
  match f.updateStatus with
  | some e => (.error e, st)
  | none =>
    match st.services (svc.Namespace, svc.Name) with
    | some cur =>
      (.ok (),
        { st with
          services :=
            Function.update st.services (svc.Namespace, svc.Name)
              (some { cur with Status := svc.Status }) })
    | none => (.error .NotFound, st)

/-! ## internal/controller: the reconciler -/

/-- The errors `Reconcile` and its helpers return: the failed step and, for a store call,
the reason the store gave (Go wraps it with `%w`). -/
inductive ReconcileError where
  | getService (e : StatusReason)
  | deleteOldWasmPlugin (e : StatusReason)
  | setControllerReference
  | getExistingWasmPlugin (e : StatusReason)
  | createWasmPlugin (e : StatusReason)
  | updateWasmPlugin (e : StatusReason)
  | updateStatus (e : StatusReason)
  deriving DecidableEq

deriving instance DecidableEq for Except

/-- What a controller function did: its result, the store afterwards, the calls issued. -/
structure Run (α : Type) where
  result : Except ReconcileError α
  store : Store
  calls : List Call

/-- `fmt.Sprintf("path-template-filter-%s", openapiService.Name)`. -/
def pluginName (svc : OpenapiService) : String :=
  "path-template-filter-" ++ svc.Name

/-- The identity of the child of `svc`: its namespace and `pluginName`. -/
def pluginKey (svc : OpenapiService) : NamespacedName :=
  (svc.Namespace, pluginName svc)

/-- The body of the path loop of `createWasmPlugin`:
`if Prefix != "" { pathKey = path.Join("/", Prefix, pathKey) }`. -/
def normalize (pathKey : String) (pfx : String) : String :=
  if pfx ≠ "" then GoPath.Join ["/", pfx, pathKey] else pathKey

/-- The path loop of `createWasmPlugin`: `paths[pathKey] = struct{}{}` for every key. -/
def buildPaths (svc : OpenapiService) : Finset String :=
  svc.Spec.OpenAPI.Paths.foldl (fun paths pathKey => insert (normalize pathKey svc.Spec.Prefix) paths) ∅

/-- The `spec` map of `createWasmPlugin`. -/
def buildSpec (svc : OpenapiService) : WasmPluginSpec :=
  { url := "anyflow/path-template-filter:0.2.2"
    imagePullPolicy := "Always"
    phase := "STATS"
    failStrategy := "FAIL_OPEN"
    priority := 10
    selector := svc.Spec.Selector
    pluginConfig :=
      { cacheSize := 5
        services := [{ name := svc.Spec.Prefix, paths := buildPaths svc }] } }

/-- The owner reference `controllerutil.SetControllerReference` builds for the parent. -/
def controllerRef (svc : OpenapiService) : OwnerReference :=
  { APIVersion := "operator.anyflow.net/v1"
    Kind := "OpenapiService"
    Name := svc.Name
    UID := svc.UID
    Controller := true
    BlockOwnerDeletion := true }

/-- The `wasmPlugin` object of `createWasmPlugin` before the controller reference is set. -/
def newWasmPlugin (svc : OpenapiService) : Unstructured :=
  { apiVersion := "extensions.istio.io/v1alpha1"
    kind := "WasmPlugin"
    Name := pluginName svc
    Namespace := svc.Namespace
    ownerReferences := []
    labels := []
    finalizers := []
    deletionTimestamp := false
    otherFields := []
    spec := some (.plugin (buildSpec svc)) }

/-- The `wasmPlugin` object after `SetControllerReference` succeeded. -/
def desiredWasmPlugin (svc : OpenapiService) : Unstructured :=
  { newWasmPlugin svc with ownerReferences := [controllerRef svc] }

/-- Go `createWasmPlugin`: build the child, set the controller reference, then get and
create or update. -/
def createWasmPlugin (f : Faults) (st : Store) (svc : OpenapiService) : Run Unstructured :=
  let spec := buildSpec svc
  if f.setControllerReference then
    ⟨.error .setControllerReference, st, []⟩
  else
    let wasmPlugin := desiredWasmPlugin svc
    let key : NamespacedName := (wasmPlugin.Namespace, wasmPlugin.Name)
    match st.getPlugin f key with
    | .error e =>
      if IsNotFound e then
        match st.createPlugin f wasmPlugin with
        | (.error e', st') =>
          ⟨.error (.createWasmPlugin e'), st', [.getPlugin key, .createPlugin wasmPlugin]⟩
        | (.ok _, st') => ⟨.ok wasmPlugin, st', [.getPlugin key, .createPlugin wasmPlugin]⟩
      else
        ⟨.error (.getExistingWasmPlugin e), st, [.getPlugin key]⟩
    | .ok existingWasmPlugin =>
      let existingWasmPlugin := { existingWasmPlugin with spec := some (.plugin spec) }
      match st.updatePlugin f existingWasmPlugin with
      | (.error e', st') =>
        ⟨.error (.updateWasmPlugin e'), st',
          [.getPlugin key, .updatePlugin existingWasmPlugin]⟩
      | (.ok _, st') =>
        ⟨.ok existingWasmPlugin, st', [.getPlugin key, .updatePlugin existingWasmPlugin]⟩

/-- Go `cleanupOldWasmPlugin`. -/
def cleanupOldWasmPlugin (f : Faults) (st : Store) (svc : OpenapiService) : Run Unit :=
  if svc.Status.WasmPluginName = "" then
    ⟨.ok (), st, []⟩
  else
    let key : NamespacedName := (svc.Namespace, "path-template-filter-" ++ svc.Name)
    match st.deletePlugin f key with
    | (.error e, st') =>
      if !IsNotFound e then ⟨.error (.deleteOldWasmPlugin e), st', [.deletePlugin key]⟩
      else ⟨.ok (), st', [.deletePlugin key]⟩
    | (.ok _, st') => ⟨.ok (), st', [.deletePlugin key]⟩

/-- Go `Reconcile`: get the parent, clean up, create or update the child, write the status. -/
def Reconcile (f : Faults) (st : Store) (req : NamespacedName) : Run Unit :=
  match st.getService f req with
  | .error e =>
    if IsNotFound e then ⟨.ok (), st, [.getService req]⟩
    else ⟨.error (.getService e), st, [.getService req]⟩
  | .ok openapiService =>
    let c := cleanupOldWasmPlugin f st openapiService
    match c.result with
    | .error err => ⟨.error err, c.store, .getService req :: c.calls⟩
    | .ok _ =>
      let w := createWasmPlugin f c.store openapiService
      match w.result with
      | .error err => ⟨.error err, w.store, .getService req :: (c.calls ++ w.calls)⟩
      | .ok wasmPlugin =>
        let openapiService :=
          { openapiService with
            Status := { WasmPluginName := wasmPlugin.Namespace ++ "/" ++ wasmPlugin.Name } }
        match w.store.updateStatus f openapiService with
        | (.error e, st') =>
          ⟨.error (.updateStatus e), st',
            .getService req :: (c.calls ++ w.calls ++ [.updateStatus openapiService])⟩
        | (.ok _, st') =>
          ⟨.ok (), st', .getService req :: (c.calls ++ w.calls ++ [.updateStatus openapiService])⟩

/-- The object `createWasmPlugin` leaves at the child's identity when every call is served:
the built child when none was there, else the stored one with only `spec` replaced. -/
def syncedPlugin (st : Store) (svc : OpenapiService) : Unstructured :=
  match st.plugins (pluginKey svc) with
  | none => desiredWasmPlugin svc
  | some existing => { existing with spec := some (.plugin (buildSpec svc)) }

/-- The store after a served delete at the child's identity. -/
def Store.afterCleanup (st : Store) (svc : OpenapiService) : Store :=
  { st with
    plugins := Function.update st.plugins (pluginKey svc) (st.afterDelete (pluginKey svc)) }

/-- The child a fault-free `Reconcile` leaves: with empty status the synchronized child of
the store as it is, else the synchronized child of the store after the delete. -/
def reconciledPlugin (st : Store) (svc : OpenapiService) : Unstructured :=
  if svc.Status.WasmPluginName = "" then syncedPlugin st svc
  else syncedPlugin (st.afterCleanup svc) svc

/-- The store without objects. -/
def emptyStore : Store := ⟨fun _ => none, fun _ => none⟩

/-- Puts a parent into the store under its own identity. -/
def Store.withService (st : Store) (svc : OpenapiService) : Store :=
  { st with services := Function.update st.services (svc.Namespace, svc.Name) (some svc) }

/-- Puts a child into the store under its own identity. -/
def Store.withPlugin (st : Store) (o : Unstructured) : Store :=
  { st with plugins := Function.update st.plugins (o.Namespace, o.Name) (some o) }

/-- The parent of the controller test: `test-openapi` in `default`. -/
def testService : OpenapiService :=
  { Name := "test-openapi"
    Namespace := "default"
    UID := "uid-1"
    Spec :=
      { Selector := ⟨[("app", "test-app")]⟩
        Prefix := "test-prefix"
        OpenAPI := ⟨["/test/path"]⟩ }
    Status := ⟨""⟩ }

/-- The key of the test parent. -/
def testKey : NamespacedName := ("default", "test-openapi")

/-- The identity of the child of the test parent. -/
def testChildKey : NamespacedName := ("default", "path-template-filter-test-openapi")

/-- The store of the first test: only the test parent. -/
def testStore : Store := emptyStore.withService testService

/-- The test parent as the second test writes it back: status as recorded by the first
reconciliation, prefix changed to `updated-prefix`. -/
def updatedService : OpenapiService :=
  { testService with
    Spec := { testService.Spec with Prefix := "updated-prefix" }
    Status := ⟨"default/path-template-filter-test-openapi"⟩ }

/-- The store of the second test: the store after the first reconciliation, with the
parent updated. -/
def updatedStore : Store := (Reconcile noFaults testStore testKey).store.withService updatedService

/-- A `WasmPlugin` at the identity of the test parent's child that somebody else made:
labelled, without owner reference, with another spec. -/
def foreignPlugin : Unstructured :=
  { apiVersion := "extensions.istio.io/v1alpha1"
    kind := "WasmPlugin"
    Name := "path-template-filter-test-openapi"
    Namespace := "default"
    ownerReferences := []
    labels := [("team", "edge")]
    finalizers := []
    deletionTimestamp := false
    otherFields := [("annotations", "note=manual")]
    spec := some (.foreign "url: other") }

/-- The same foreign child carrying a finalizer. -/
def guardedPlugin : Unstructured :=
  { foreignPlugin with finalizers := ["example.com/guard"] }

/-- The test parent with empty status next to an existing child. -/
def adoptStore : Store := testStore.withPlugin foreignPlugin

/-- The test parent as a completed reconciliation leaves it: the status names the child. -/
def settledService : OpenapiService :=
  { testService with Status := ⟨"default/path-template-filter-test-openapi"⟩ }

/-- The store a completed reconciliation of the test parent leaves. -/
def settledStore : Store :=
  (emptyStore.withService settledService).withPlugin (desiredWasmPlugin settledService)

/-- The settled test parent next to the foreign child with a finalizer. -/
def guardedSettledStore : Store :=
  (emptyStore.withService settledService).withPlugin guardedPlugin

/-- The run in which only the delete fails, with the given reason. -/
def deleteFails (e : StatusReason) : Faults :=
  { noFaults with deletePlugin := some e }

/-- A parent with the two keys `/a` and `/a/`, under the given prefix. -/
def collapseService (pfx : String) : OpenapiService :=
  { Name := "svc"
    Namespace := "default"
    UID := "uid-2"
    Spec :=
      { Selector := ⟨[]⟩
        Prefix := pfx
        OpenAPI := ⟨["/a", "/a/"]⟩ }
    Status := ⟨""⟩ }

end Operator

/-! ## Properties of the path join -/

namespace GoPath

theorem backtrackLoop_le (buf : List Char) (dotdot : Nat) (w : Nat) :
    backtrackLoop buf dotdot w ≤ w := by
  induction w with
  | zero => simp [backtrackLoop]
  | succ w ih =>
    unfold backtrackLoop
    split
    · omega
    · exact le_refl _

theorem backtrackLoop_ge (buf : List Char) (dotdot : Nat) (w : Nat) (h : dotdot ≤ w) :
    dotdot ≤ backtrackLoop buf dotdot w := by
  induction w with
  | zero => simpa [backtrackLoop] using h
  | succ w ih =>
    unfold backtrackLoop
    split
    · rename_i hc
      exact ih (by omega)
    · exact h

theorem backtrackLoop_stop (buf : List Char) (dotdot : Nat) (w : Nat) (h : dotdot ≤ w) :
    backtrackLoop buf dotdot w = dotdot ∨ buf[backtrackLoop buf dotdot w]? = some '/' := by
  induction w with
  | zero =>
    left
    simp [backtrackLoop]
    omega
  | succ w ih =>
    unfold backtrackLoop
    split
    · rename_i hc
      exact ih (by omega)
    · rename_i hc
      by_cases hd : dotdot < w + 1
      · right
        by_contra hne
        exact hc ⟨hd, hne⟩
      · left
        omega

theorem rootedBuf_root : RootedBuf ['/'] := by
  refine ⟨rfl, ?_, fun _ => rfl⟩
  simp

theorem rootedBuf_take (out : List Char) (h : RootedBuf out) (w : Nat) (hw : 1 ≤ w)
    (hlt : w < out.length) (hstop : w = 1 ∨ out[w]? = some '/') : RootedBuf (out.take w) := by
  obtain ⟨hh, hc, hl⟩ := h
  refine ⟨?_, hc.take w, ?_⟩
  · cases out with
    | nil => simp at hlt
    | cons a t =>
      cases w with
      | zero => omega
      | succ w => simpa using hh
  · intro hlast
    rcases hstop with h1 | hs
    · subst h1
      cases out with
      | nil => simp at hlt
      | cons a t =>
        simp at hh
        simp [hh]
    · exfalso
      have hlen : (out.take w).length = w := by
        simp [List.length_take]; omega
      rw [List.getLast?_eq_getElem?, hlen, List.getElem?_take_of_lt (by omega)] at hlast
      rw [List.chain'_iff_get] at hc
      have h2 := hc (w - 1) (by omega)
      have e1 : out[w - 1]? = some (out.get ⟨w - 1, by omega⟩) := by
        simp [List.getElem?_eq_getElem]
      have e2 : out[w]? = some (out.get ⟨w - 1 + 1, by omega⟩) := by
        have : w - 1 + 1 = w := by omega
        simp [this, List.getElem?_eq_getElem, hlt]
      rw [e1] at hlast
      rw [e2] at hs
      exact h2 ⟨Option.some.inj hlast, Option.some.inj hs⟩

theorem chain_of_no_slash (l : List Char) (h : ∀ x ∈ l, x ≠ '/') :
    l.Chain' (fun a b => ¬(a = '/' ∧ b = '/')) := by
  induction l with
  | nil => simp
  | cons a l ih =>
    rw [List.chain'_cons']
    refine ⟨?_, ih (fun x hx => h x (List.mem_cons_of_mem _ hx))⟩
    intro y _ hy
    exact h a (List.mem_cons_self _ _) hy.1

theorem rootedBuf_append_elem (out : List Char) (h : RootedBuf out) (c : Char) (t : List Char)
    (hc : c ≠ '/') :
    RootedBuf ((if out.length ≠ 1 then out ++ ['/'] else out) ++
      (c :: t).takeWhile (fun x => x != '/')) := by
  obtain ⟨hh, hch, hl⟩ := h
  have htw : (c :: t).takeWhile (fun x => x != '/') = c :: t.takeWhile (fun x => x != '/') := by
    rw [List.takeWhile_cons]
    simp [hc]
  have hall : ∀ x ∈ c :: t.takeWhile (fun x => x != '/'), x ≠ '/' := by
    intro x hx
    rcases List.mem_cons.1 hx with rfl | hx
    · exact hc
    · simpa using List.mem_takeWhile_imp hx
  have hchE := chain_of_no_slash _ hall
  rw [htw]
  have hne : out ≠ [] := by
    intro h0
    simp [h0] at hh
  have hlastE : ∀ (X : List Char),
      (X ++ c :: t.takeWhile (fun x => x != '/')).getLast? = some '/' → False := by
    intro X hX
    have hm := List.mem_of_getLast?_eq_some hX
    rw [List.getLast?_append_of_ne_nil _ (List.cons_ne_nil _ _)] at hX
    exact hall _ (List.mem_of_getLast?_eq_some hX) rfl
  by_cases h1 : out.length ≠ 1
  · rw [if_pos h1]
    refine ⟨?_, ?_, fun hX => (hlastE _ hX).elim⟩
    · cases out with
      | nil => exact absurd rfl hne
      | cons a l => simpa using hh
    · refine List.Chain'.append (List.Chain'.append hch (by simp) ?_) hchE ?_
      · intro x hx y hy
        simp at hy
        intro hxy
        have : out = ['/'] := hl (by rw [← hxy.1]; exact hx)
        rw [this] at h1
        simp at h1
      · intro x _ y hy hxy
        simp at hy
        exact hc (hy ▸ hxy.2)
  · rw [if_neg h1]
    refine ⟨?_, ?_, fun hX => (hlastE _ hX).elim⟩
    · cases out with
      | nil => exact absurd rfl hne
      | cons a l => simpa using hh
    · refine List.Chain'.append hch hchE ?_
      intro x _ y hy hxy
      simp at hy
      exact hc (hy ▸ hxy.2)

theorem cleanLoop_rootedBuf (fuel : Nat) :
    ∀ (rest out : List Char), RootedBuf out → RootedBuf (cleanLoop true fuel rest out 1) := by
  induction fuel with
  | zero =>
    intro rest out h
    simpa [cleanLoop] using h
  | succ fuel ih =>
    intro rest out h
    cases rest with
    | nil => simpa [cleanLoop] using h
    | cons c t =>
      unfold cleanLoop
      split
      · exact ih _ _ h
      · rename_i hc
        split
        · exact ih _ _ h
        · split
          · split
            · rename_i hlen
              apply ih
              have hge := backtrackLoop_ge out 1 (out.length - 1) (by omega)
              have hle := backtrackLoop_le out 1 (out.length - 1)
              exact rootedBuf_take out h _ hge (by omega)
                (backtrackLoop_stop out 1 (out.length - 1) (by omega))
            · split
              · rename_i hr
                exact absurd hr (by decide)
              · exact ih _ _ h
          · apply ih
            have := rootedBuf_append_elem out h c t hc
            simpa using this

/-- Enough fuel: one more unit of fuel than the length of the rest changes nothing. -/
theorem cleanLoop_fuel_succ (rooted : Bool) (fuel : Nat) :
    ∀ (rest out : List Char) (dotdot : Nat), rest.length ≤ fuel →
      cleanLoop rooted (fuel + 1) rest out dotdot = cleanLoop rooted fuel rest out dotdot := by
  induction fuel with
  | zero =>
    intro rest out dotdot h
    have : rest = [] := List.length_eq_zero.1 (by omega)
    subst this
    simp [cleanLoop]
  | succ fuel ih =>
    intro rest out dotdot h
    cases rest with
    | nil => simp [cleanLoop]
    | cons c t =>
      have ht : t.length ≤ fuel := by simpa using h
      have htt : t.tail.length ≤ fuel := by
        have := List.length_tail t
        omega
      have hd : ((c :: t).dropWhile (fun x => x != '/')).length ≤ fuel ∨ c = '/' := by
        by_cases hc : c = '/'
        · exact Or.inr hc
        · left
          rw [List.dropWhile_cons]
          simp only [bne_iff_ne, ne_eq, hc, not_false_eq_true, ↓reduceIte]
          have := (List.dropWhile_sublist (fun x => x != '/') (l := t)).length_le
          omega
      rw [cleanLoop]
      conv_rhs => rw [cleanLoop]
      split
      · exact ih _ _ _ ht
      · rename_i hc
        split
        · exact ih _ _ _ ht
        · split
          · split
            · exact ih _ _ _ htt
            · split
              · exact ih _ _ _ htt
              · exact ih _ _ _ htt
          · rcases hd with hd | hd
            · exact ih _ _ _ hd
            · exact absurd hd hc

/-- Any fuel of at least the length of the rest gives the result of exactly that much. -/
theorem cleanLoop_fuel (rooted : Bool) (fuel : Nat) (rest out : List Char) (dotdot : Nat)
    (h : rest.length ≤ fuel) :
    cleanLoop rooted fuel rest out dotdot = cleanLoop rooted rest.length rest out dotdot := by
  induction fuel with
  | zero =>
    have : rest.length = 0 := by omega
    rw [this]
  | succ fuel ih =>
    by_cases hf : rest.length ≤ fuel
    · rw [cleanLoop_fuel_succ rooted fuel rest out dotdot hf]
      exact ih hf
    · have : rest.length = fuel + 1 := by omega
      rw [this]

/-- `Clean` of a path that starts with `/`. -/
theorem Clean_rooted (t : List Char) :
    Clean (String.mk ('/' :: t)) = String.mk (cleanLoop true (t.length + 1) t ['/'] 1) ∧
      RootedBuf (cleanLoop true (t.length + 1) t ['/'] 1) := by
  have hr := cleanLoop_rootedBuf (t.length + 1) t ['/'] rootedBuf_root
  refine ⟨?_, hr⟩
  have hne : String.mk ('/' :: t) ≠ "" := by
    intro h
    have := congrArg String.data h
    simp at this
  have hlen : (cleanLoop true (t.length + 1) t ['/'] 1).length ≠ 0 := by
    intro h0
    have := List.length_eq_zero.1 h0
    rw [this] at hr
    simp [RootedBuf] at hr
  simp [Clean, hne, hlen]

/-- The three-element join the controller calls, with a non-empty element in front. -/
theorem Join_root (pfx rawPath : String) :
    Join ["/", pfx, rawPath] =
      Clean (String.mk ('/' :: ('/' :: (pfx.data ++ '/' :: rawPath.data)))) := by
  have h : ("/" : String) ≠ "" := by decide
  simp only [Join, h, ↓reduceIte]
  congr 1
  apply String.ext
  simp [String.intercalate, String.intercalate.go, String.data_append]

end GoPath

namespace Operator

/-! ## The controller when every call is served -/

theorem updateStatus_noFaults (st : Store) (P : OpenapiService) (s : OpenapiServiceStatus)
    (hP : st.services (P.Namespace, P.Name) = some P) :
    st.updateStatus noFaults { P with Status := s } =
      (.ok (),
        { st with
          services :=
            Function.update st.services (P.Namespace, P.Name) (some { P with Status := s }) }) := by
  simp [Store.updateStatus, noFaults, hP]

theorem afterCleanup_of_absent (st : Store) (P : OpenapiService)
    (h : st.plugins (pluginKey P) = none) : st.afterCleanup P = st := by
  have ha : st.afterDelete (pluginKey P) = st.plugins (pluginKey P) := by
    simp [Store.afterDelete, h]
  unfold Store.afterCleanup
  rw [ha, Function.update_eq_self]

/-- A cleanup whose delete the store serves, for a parent with non-empty status. -/
theorem cleanup_served (f : Faults) (st : Store) (P : OpenapiService)
    (hs : P.Status.WasmPluginName ≠ "") (hf : f.deletePlugin = none) :
    cleanupOldWasmPlugin f st P =
      ⟨.ok (), st.afterCleanup P, [.deletePlugin (pluginKey P)]⟩ := by
  have hkey : (P.Namespace, "path-template-filter-" ++ P.Name) = pluginKey P := rfl
  unfold cleanupOldWasmPlugin
  rw [if_neg hs, hkey]
  cases hp : st.plugins (pluginKey P) with
  | none =>
    rw [afterCleanup_of_absent st P hp]
    simp [Store.deletePlugin, hf, hp, IsNotFound]
  | some o => simp [Store.deletePlugin, hf, hp, Store.afterCleanup]

theorem cleanup_noFaults (st : Store) (P : OpenapiService) :
    cleanupOldWasmPlugin noFaults st P =
      if P.Status.WasmPluginName = "" then ⟨.ok (), st, []⟩
      else ⟨.ok (), st.afterCleanup P, [.deletePlugin (pluginKey P)]⟩ := by
  by_cases hs : P.Status.WasmPluginName = ""
  · simp [cleanupOldWasmPlugin, hs]
  · rw [if_neg hs]
    exact cleanup_served noFaults st P hs rfl

theorem syncedPlugin_key (st : Store) (P : OpenapiService) (hwf : st.WF) :
    ((syncedPlugin st P).Namespace, (syncedPlugin st P).Name) = pluginKey P := by
  unfold syncedPlugin
  cases h : st.plugins (pluginKey P) with
  | none => rfl
  | some e =>
    show (e.Namespace, e.Name) = pluginKey P
    exact hwf.2 _ e h

theorem create_noFaults (st : Store) (P : OpenapiService) (hwf : st.WF) :
    (createWasmPlugin noFaults st P).result = .ok (syncedPlugin st P) ∧
      (createWasmPlugin noFaults st P).store =
        { st with
          plugins := Function.update st.plugins (pluginKey P) (some (syncedPlugin st P)) } := by
  have hk := syncedPlugin_key st P hwf
  unfold syncedPlugin at hk ⊢
  cases h : st.plugins (pluginKey P) with
  | none =>
    have h' : st.plugins (P.Namespace, "path-template-filter-" ++ P.Name) = none := h
    simp [createWasmPlugin, Store.getPlugin, Store.createPlugin, noFaults, desiredWasmPlugin,
      newWasmPlugin, pluginName, pluginKey, IsNotFound, h']
  | some e =>
    have h' : st.plugins (P.Namespace, "path-template-filter-" ++ P.Name) = some e := h
    rw [h] at hk
    have hk' : (e.Namespace, e.Name) = (P.Namespace, "path-template-filter-" ++ P.Name) := hk
    simp [createWasmPlugin, Store.getPlugin, Store.updatePlugin, noFaults, desiredWasmPlugin,
      newWasmPlugin, pluginName, pluginKey, IsNotFound, h', hk']

theorem WF_afterCleanup (st : Store) (hwf : st.WF) (P : OpenapiService) :
    (st.afterCleanup P).WF := by
  refine ⟨hwf.1, ?_⟩
  intro k o h
  by_cases hk : k = pluginKey P
  · subst hk
    simp only [Store.afterCleanup, Function.update_same, Store.afterDelete] at h
    cases hp : st.plugins (pluginKey P) with
    | none => simp [hp] at h
    | some e =>
      simp only [hp] at h
      by_cases hfin : e.finalizers = []
      · simp [hfin] at h
      · simp only [hfin, if_false, Option.some.injEq] at h
        subst h
        exact hwf.2 _ e hp
  · simp only [Store.afterCleanup, Function.update_noteq hk] at h
    exact hwf.2 _ _ h

theorem syncedPlugin_spec (st : Store) (P : OpenapiService) :
    (syncedPlugin st P).spec = some (.plugin (buildSpec P)) := by
  unfold syncedPlugin
  cases st.plugins (pluginKey P) <;> rfl

theorem reconciledPlugin_key (st : Store) (P : OpenapiService) (hwf : st.WF) :
    ((reconciledPlugin st P).Namespace, (reconciledPlugin st P).Name) = pluginKey P := by
  unfold reconciledPlugin
  split
  · exact syncedPlugin_key st P hwf
  · exact syncedPlugin_key _ P (WF_afterCleanup st hwf P)

theorem reconciledPlugin_spec (st : Store) (P : OpenapiService) :
    (reconciledPlugin st P).spec = some (.plugin (buildSpec P)) := by
  unfold reconciledPlugin
  split <;> exact syncedPlugin_spec _ P

/-- The store a fault-free `Reconcile` leaves. -/
theorem Reconcile_noFaults (st : Store) (P : OpenapiService) (hwf : st.WF)
    (hP : st.services (P.Namespace, P.Name) = some P) :
    (Reconcile noFaults st (P.Namespace, P.Name)).result = .ok () ∧
      (Reconcile noFaults st (P.Namespace, P.Name)).store =
        { services :=
            Function.update st.services (P.Namespace, P.Name)
              (some { P with Status := ⟨P.Namespace ++ "/" ++ pluginName P⟩ })
          plugins := Function.update st.plugins (pluginKey P) (some (reconciledPlugin st P)) } := by
  have hget : st.getService noFaults (P.Namespace, P.Name) = .ok P := by
    simp [Store.getService, noFaults, hP]
  by_cases hs : P.Status.WasmPluginName = ""
  · obtain ⟨hr, hst⟩ := create_noFaults st P hwf
    have hk := syncedPlugin_key st P hwf
    have hk1 : (syncedPlugin st P).Namespace = P.Namespace := congrArg Prod.fst hk
    have hk2 : (syncedPlugin st P).Name = pluginName P := congrArg Prod.snd hk
    have hup := updateStatus_noFaults (createWasmPlugin noFaults st P).store P
      ⟨P.Namespace ++ "/" ++ pluginName P⟩ (by rw [hst]; exact hP)
    simp only [Reconcile, hget, cleanup_noFaults, hs, if_true, hr, hk1, hk2, hup]
    simp [hst, reconciledPlugin, hs]
  · obtain ⟨hr, hst⟩ := create_noFaults _ P (WF_afterCleanup st hwf P)
    have hk := syncedPlugin_key _ P (WF_afterCleanup st hwf P)
    have hk1 : (syncedPlugin (st.afterCleanup P) P).Namespace = P.Namespace :=
      congrArg Prod.fst hk
    have hk2 : (syncedPlugin (st.afterCleanup P) P).Name = pluginName P := congrArg Prod.snd hk
    have hup := updateStatus_noFaults (createWasmPlugin noFaults (st.afterCleanup P) P).store P
      ⟨P.Namespace ++ "/" ++ pluginName P⟩ (by rw [hst]; exact hP)
    simp only [Reconcile, hget, cleanup_noFaults, hs, if_false, hr, hk1, hk2, hup]
    rw [hst]
    simp [reconciledPlugin, hs, Store.afterCleanup]

theorem deletePlugin_error_store (f : Faults) (st : Store) (k : NamespacedName)
    (e : StatusReason) (h : (st.deletePlugin f k).1 = .error e) : (st.deletePlugin f k).2 = st := by
  unfold Store.deletePlugin at h ⊢
  cases hf : f.deletePlugin with
  | some e' => simp
  | none =>
    cases hp : st.plugins k with
    | none => simp
    | some o => simp [hf, hp] at h

/-- Whatever the failures, a `createWasmPlugin` that returns an object has left exactly
`syncedPlugin` at the child's identity and has returned it. -/
theorem create_ok (f : Faults) (st : Store) (P : OpenapiService) (hwf : st.WF)
    (w : Unstructured) (h : (createWasmPlugin f st P).result = .ok w) :
    w = syncedPlugin st P ∧
      (createWasmPlugin f st P).store =
        { st with plugins := Function.update st.plugins (pluginKey P) (some w) } ∧
      (createWasmPlugin f st P).calls =
        [.getPlugin (pluginKey P),
          if st.plugins (pluginKey P) = none then .createPlugin w else .updatePlugin w] := by
  have hk := syncedPlugin_key st P hwf
  unfold syncedPlugin at hk ⊢
  unfold createWasmPlugin at h ⊢
  cases hset : f.setControllerReference with
  | true => simp [hset] at h
  | false =>
    simp only [hset, Bool.false_eq_true, if_false] at h ⊢
    have hkey : ((desiredWasmPlugin P).Namespace, (desiredWasmPlugin P).Name) = pluginKey P := rfl
    rw [hkey] at h ⊢
    cases hp : st.plugins (pluginKey P) with
    | none =>
      have hc : st.plugins ((desiredWasmPlugin P).Namespace, (desiredWasmPlugin P).Name) = none :=
        hp
      cases hg : f.getPlugin with
      | some e =>
        cases hnf : IsNotFound e <;> cases hcr : f.createPlugin <;>
          simp [Store.getPlugin, Store.createPlugin, hg, hnf, hcr, hc] at h ⊢
        subst h
        exact ⟨rfl, rfl, rfl⟩
      | none =>
        cases hcr : f.createPlugin <;>
          simp [Store.getPlugin, Store.createPlugin, hg, hcr, hc, hp, IsNotFound] at h ⊢
        subst h
        exact ⟨rfl, rfl, rfl⟩
    | some e =>
      rw [hp] at hk
      have hk' : (e.Namespace, e.Name) = pluginKey P := hk
      have hc : st.plugins ((desiredWasmPlugin P).Namespace, (desiredWasmPlugin P).Name) =
          some e := hp
      cases hg : f.getPlugin with
      | some e' =>
        cases hnf : IsNotFound e' <;> cases hcr : f.createPlugin <;>
          simp [Store.getPlugin, Store.createPlugin, hg, hnf, hcr, hc] at h ⊢
      | none =>
        cases hu : f.updatePlugin <;>
          simp [Store.getPlugin, Store.updatePlugin, hg, hu, hp, hk'] at h ⊢
        subst h
        exact ⟨rfl, rfl, rfl⟩

theorem cleanup_store_cases (f : Faults) (st : Store) (P : OpenapiService) :
    (cleanupOldWasmPlugin f st P).store = st ∨
      (cleanupOldWasmPlugin f st P).store = st.afterCleanup P := by
  by_cases hs : P.Status.WasmPluginName = ""
  · left
    simp [cleanupOldWasmPlugin, hs]
  · cases hf : f.deletePlugin with
    | none =>
      right
      rw [cleanup_served f st P hs hf]
    | some e =>
      left
      unfold cleanupOldWasmPlugin
      rw [if_neg hs]
      cases hn : IsNotFound e <;> simp [Store.deletePlugin, hf, hn]

theorem cleanup_store_WF (f : Faults) (st : Store) (P : OpenapiService) (hwf : st.WF) :
    (cleanupOldWasmPlugin f st P).store.WF ∧
      (cleanupOldWasmPlugin f st P).store.services = st.services := by
  rcases cleanup_store_cases f st P with h | h <;> rw [h]
  · exact ⟨hwf, rfl⟩
  · exact ⟨WF_afterCleanup st hwf P, rfl⟩

theorem foldl_insert_image (g : String → String) (l : List String) :
    ∀ acc : Finset String,
      l.foldl (fun paths pathKey => insert (g pathKey) paths) acc = acc ∪ l.toFinset.image g := by
  induction l with
  | nil => intro acc; simp
  | cons k l ih =>
    intro acc
    rw [List.foldl_cons, ih]
    ext x
    simp only [Finset.mem_union, Finset.mem_insert, Finset.mem_image, List.mem_toFinset,
      List.mem_cons]
    constructor
    · rintro ((rfl | h) | ⟨a, ha, rfl⟩)
      · exact Or.inr ⟨k, Or.inl rfl, rfl⟩
      · exact Or.inl h
      · exact Or.inr ⟨a, Or.inr ha, rfl⟩
    · rintro (h | ⟨a, rfl | ha, rfl⟩)
      · exact Or.inl (Or.inr h)
      · exact Or.inl (Or.inl rfl)
      · exact Or.inr ⟨a, ha, rfl⟩

theorem buildPaths_image (svc : OpenapiService) :
    buildPaths svc =
      svc.Spec.OpenAPI.Paths.toFinset.image (fun k => normalize k svc.Spec.Prefix) := by
  unfold buildPaths
  rw [foldl_insert_image (fun k => normalize k svc.Spec.Prefix)]
  simp

/-- C2: for every non-empty prefix and every raw path, the normalized path the builder
computes is `path.Join("/", prefix, rawPath)`; it starts with `/`, contains no `//`,
and ends with `/` only when it is exactly `/`. -/
theorem normalize_absolute_no_duplicate_separator (pfx rawPath : String) (h : pfx ≠ "") :
    normalize rawPath pfx = GoPath.Join ["/", pfx, rawPath] ∧
      ['/'] <+: (normalize rawPath pfx).data ∧
      ¬ (['/', '/'] <:+: (normalize rawPath pfx).data) ∧
      (['/'] <:+ (normalize rawPath pfx).data → normalize rawPath pfx = "/") := by
  have hn : normalize rawPath pfx = GoPath.Join ["/", pfx, rawPath] := by
    simp [normalize, h]
  obtain ⟨hc, hh, hch, hl⟩ := GoPath.Clean_rooted ('/' :: (pfx.data ++ '/' :: rawPath.data))
  rw [← GoPath.Join_root, ← hn] at hc
  refine ⟨hn, ?_, ?_, ?_⟩
  · rw [hc]
    generalize GoPath.cleanLoop true _ _ _ _ = out at hh
    cases out with
    | nil => simp at hh
    | cons a t =>
      simp at hh
      subst hh
      exact ⟨t, rfl⟩
  · rw [hc]
    intro hin
    have := hch.infix hin
    simp at this
  · rw [hc]
    intro hs
    obtain ⟨s, hs⟩ := hs
    have hs' : s ++ ['/'] = GoPath.cleanLoop true _ _ ['/'] 1 := hs
    have hlast := hl (by rw [← hs']; simp)
    rw [hlast]

/-- C2 at the inputs of the specification: `normalize("/foo", "bar") = "/bar/foo"`, and the
test path under the test prefix. -/
theorem normalize_absolute_no_duplicate_separator_witness :
    ("bar" : String) ≠ "" ∧ normalize "/foo" "bar" = "/bar/foo" ∧
      normalize "/test/path" "test-prefix" = "/test-prefix/test/path" ∧
      normalize "" "bar" = "/bar" ∧ normalize "../..//x/./" "bar" = "/x" ∧
      ¬ (['/', '/'] <:+: (normalize "/foo" "bar").data) :=
  ⟨by decide, by decide, by decide, by decide, by decide,
    (normalize_absolute_no_duplicate_separator "bar" "/foo" (by decide)).2.2.1⟩

/-- C3: the path set the builder puts in `services[0].paths` is the image of the key set
under `normalize(·, prefix)`, where `normalize(k, "") = k`; it has at most as many elements
as there are keys, two distinct keys with the same normalized path make it strictly smaller
than the key set, and under the empty prefix it is the key set. -/
theorem buildPaths_is_normalized_key_set (svc : OpenapiService) :
    (buildSpec svc).pluginConfig.services = [⟨svc.Spec.Prefix, buildPaths svc⟩] ∧
      buildPaths svc =
        svc.Spec.OpenAPI.Paths.toFinset.image (fun k => normalize k svc.Spec.Prefix) ∧
      (∀ k, normalize k "" = k) ∧
      (buildPaths svc).card ≤ svc.Spec.OpenAPI.Paths.toFinset.card ∧
      svc.Spec.OpenAPI.Paths.toFinset.card ≤ svc.Spec.OpenAPI.Paths.length ∧
      (∀ k₁ k₂, k₁ ∈ svc.Spec.OpenAPI.Paths → k₂ ∈ svc.Spec.OpenAPI.Paths → k₁ ≠ k₂ →
        normalize k₁ svc.Spec.Prefix = normalize k₂ svc.Spec.Prefix →
        (buildPaths svc).card < svc.Spec.OpenAPI.Paths.toFinset.card) ∧
      (svc.Spec.Prefix = "" → buildPaths svc = svc.Spec.OpenAPI.Paths.toFinset) := by
  have himg := buildPaths_image svc
  refine ⟨rfl, himg, fun k => by simp [normalize], ?_, List.toFinset_card_le _, ?_, ?_⟩
  · rw [himg]
    exact Finset.card_image_le
  · intro k₁ k₂ h₁ h₂ hne heq
    rw [himg]
    refine lt_of_le_of_ne Finset.card_image_le ?_
    intro hcard
    have hinj := Finset.card_image_iff.1 hcard
    exact hne (hinj (by simpa using h₁) (by simpa using h₂) heq)
  · intro hp
    rw [himg, hp]
    have : (fun k => normalize k "") = id := by
      funext k
      simp [normalize]
    rw [this, Finset.image_id]

/-- C3 at the keys `/a` and `/a/` under the prefix `p`: one element, `/p/a`; and under the
empty prefix the key set itself. -/
theorem buildPaths_is_normalized_key_set_witness :
    buildPaths (collapseService "p") = {"/p/a"} ∧
      (buildPaths (collapseService "p")).card < 2 ∧
      buildPaths (collapseService "") = {"/a", "/a/"} :=
  ⟨by decide,
    (buildPaths_is_normalized_key_set (collapseService "p")).2.2.2.2.2.1 "/a" "/a/"
      (by decide) (by decide) (by decide) (by decide),
    (buildPaths_is_normalized_key_set (collapseService "")).2.2.2.2.2.2 rfl⟩

/-! ## Well-formed stores -/

theorem WF_emptyStore : emptyStore.WF :=
  ⟨fun _ _ h => by simp [emptyStore] at h, fun _ _ h => by simp [emptyStore] at h⟩

theorem WF_withService (st : Store) (hwf : st.WF) (svc : OpenapiService) :
    (st.withService svc).WF := by
  refine ⟨?_, hwf.2⟩
  intro k s h
  by_cases hk : k = (svc.Namespace, svc.Name)
  · subst hk
    simp [Store.withService] at h
    subst h
    rfl
  · simp only [Store.withService, Function.update_noteq hk] at h
    exact hwf.1 _ _ h

theorem WF_withPlugin (st : Store) (hwf : st.WF) (o : Unstructured) :
    (st.withPlugin o).WF := by
  refine ⟨hwf.1, ?_⟩
  intro k p h
  by_cases hk : k = (o.Namespace, o.Name)
  · subst hk
    simp [Store.withPlugin] at h
    subst h
    rfl
  · simp only [Store.withPlugin, Function.update_noteq hk] at h
    exact hwf.2 _ _ h

theorem WF_testStore : testStore.WF := WF_withService _ WF_emptyStore _

theorem WF_adoptStore : adoptStore.WF := WF_withPlugin _ WF_testStore _

theorem WF_guardedSettledStore : guardedSettledStore.WF :=
  WF_withPlugin _ (WF_withService _ WF_emptyStore _) _

/-- C1: for every parent `P` present in the store, whatever its status and whether or not
a child exists, the run of `Reconcile` in which every call is served returns no error;
afterwards the store holds a WasmPlugin in `P.Namespace` named
`path-template-filter-` + `P.Name` whose spec is the spec built from `P` (one service
entry, named by the prefix, with the normalized path set), and the status of `P` is
`P.Namespace` + `/` + `path-template-filter-` + `P.Name`. -/
theorem Reconcile_establishes_child (st : Store) (P : OpenapiService) (hwf : st.WF)
    (hP : st.services (P.Namespace, P.Name) = some P) :
    (Reconcile noFaults st (P.Namespace, P.Name)).result = .ok () ∧
      (∃ child,
        (Reconcile noFaults st (P.Namespace, P.Name)).store.plugins
            (P.Namespace, "path-template-filter-" ++ P.Name) = some child ∧
          child.Namespace = P.Namespace ∧ child.Name = "path-template-filter-" ++ P.Name ∧
          child.spec = some (.plugin (buildSpec P))) ∧
      (buildSpec P).pluginConfig.services =
        [⟨P.Spec.Prefix,
          P.Spec.OpenAPI.Paths.toFinset.image (fun k => normalize k P.Spec.Prefix)⟩] ∧
      (∃ P',
        (Reconcile noFaults st (P.Namespace, P.Name)).store.services (P.Namespace, P.Name) =
            some P' ∧
          P'.Spec = P.Spec ∧
          P'.Status.WasmPluginName =
            P.Namespace ++ "/" ++ ("path-template-filter-" ++ P.Name)) := by
  obtain ⟨hr, hst⟩ := Reconcile_noFaults st P hwf hP
  refine ⟨hr, ?_, ?_, ?_⟩
  · rw [hst]
    have hk := reconciledPlugin_key st P hwf
    exact ⟨_, Function.update_same _ _ _, congrArg Prod.fst hk, congrArg Prod.snd hk,
      reconciledPlugin_spec st P⟩
  · show [(⟨P.Spec.Prefix, buildPaths P⟩ : ServiceEntry)] = _
    rw [buildPaths_image]
  · rw [hst]
    exact ⟨_, Function.update_same _ _ _, rfl, rfl⟩

/-- C1 on the controller test: the parent `test-openapi` in `default` with prefix
`test-prefix` and path `/test/path` gets the child `path-template-filter-test-openapi`
with exactly the path `/test-prefix/test/path`; after the prefix is changed to
`updated-prefix`, the next reconciliation leaves `services[0].name = updated-prefix` at the
same identity. -/
theorem Reconcile_establishes_child_witness :
    testStore.WF ∧ testStore.services ("default", "test-openapi") = some testService ∧
      (Reconcile noFaults testStore ("default", "test-openapi")).result = .ok () ∧
      ((Reconcile noFaults testStore ("default", "test-openapi")).store.plugins
          ("default", "path-template-filter-test-openapi")).bind (fun o => o.spec) =
        some (.plugin (buildSpec testService)) ∧
      (buildSpec testService).pluginConfig.services =
        [⟨"test-prefix", {"/test-prefix/test/path"}⟩] ∧
      ((Reconcile noFaults updatedStore ("default", "test-openapi")).store.plugins
          ("default", "path-template-filter-test-openapi")).bind (fun o => o.spec) =
        some (.plugin (buildSpec updatedService)) ∧
      (buildSpec updatedService).pluginConfig.services =
        [⟨"updated-prefix", {"/updated-prefix/test/path"}⟩] :=
  ⟨WF_testStore, by decide,
    (Reconcile_establishes_child testStore testService WF_testStore (by decide)).1,
    by decide, by decide, by decide, by decide⟩

/-- C4: when a WasmPlugin exists at the child's identity and `createWasmPlugin` returns an
object, it has taken the found branch: one get and one update; the stored object is the
existing one with only `spec` replaced (owner references, name, namespace, labels and all
other top-level fields as before), every other WasmPlugin and every OpenapiService in the
store is untouched. -/
theorem createWasmPlugin_update_preserves_metadata (f : Faults) (st : Store)
    (svc : OpenapiService) (existing w : Unstructured) (hwf : st.WF)
    (hex : st.plugins (pluginKey svc) = some existing)
    (hok : (createWasmPlugin f st svc).result = .ok w) :
    (createWasmPlugin f st svc).calls = [.getPlugin (pluginKey svc), .updatePlugin w] ∧
      (createWasmPlugin f st svc).store.plugins (pluginKey svc) = some w ∧
      w = { existing with spec := some (.plugin (buildSpec svc)) } ∧
      w.ownerReferences = existing.ownerReferences ∧ w.Name = existing.Name ∧
      w.Namespace = existing.Namespace ∧ w.labels = existing.labels ∧
      w.otherFields = existing.otherFields ∧ w.apiVersion = existing.apiVersion ∧
      w.kind = existing.kind ∧ w.finalizers = existing.finalizers ∧
      w.deletionTimestamp = existing.deletionTimestamp ∧
      (∀ k, k ≠ pluginKey svc → (createWasmPlugin f st svc).store.plugins k = st.plugins k) ∧
      (createWasmPlugin f st svc).store.services = st.services := by
  obtain ⟨hw, hst, hcalls⟩ := create_ok f st svc hwf w hok
  have hw' : w = { existing with spec := some (.plugin (buildSpec svc)) } := by
    rw [hw]
    simp [syncedPlugin, hex]
  refine ⟨?_, ?_, hw', ?_, ?_, ?_, ?_, ?_, ?_, ?_, ?_, ?_, ?_, ?_⟩
  · rw [hcalls]
    simp [hex]
  · rw [hst]
    exact Function.update_same _ _ _
  all_goals first
    | (rw [hw'])
    | (intro k hk; rw [hst]; exact Function.update_noteq hk _ _)
    | (rw [hst])

/-- C4 on the test parent next to a child somebody else made: the update keeps its label and
its (empty) owner references. -/
theorem createWasmPlugin_update_preserves_metadata_witness :
    adoptStore.WF ∧ adoptStore.plugins (pluginKey testService) = some foreignPlugin ∧
      (createWasmPlugin noFaults adoptStore testService).result =
        .ok { foreignPlugin with spec := some (.plugin (buildSpec testService)) } ∧
      (createWasmPlugin noFaults adoptStore testService).store.plugins (pluginKey testService) =
        some { foreignPlugin with spec := some (.plugin (buildSpec testService)) } :=
  ⟨WF_adoptStore, by decide, by decide,
    (createWasmPlugin_update_preserves_metadata noFaults adoptStore testService foreignPlugin
      { foreignPlugin with spec := some (.plugin (buildSpec testService)) } WF_adoptStore
      (by decide) (by decide)).2.1⟩

theorem syncedPlugin_fixed (st : Store) (P : OpenapiService) :
    syncedPlugin
        { st with plugins := Function.update st.plugins (pluginKey P) (some (syncedPlugin st P)) }
        P = syncedPlugin st P := by
  simp only [syncedPlugin, Function.update_same]
  cases st.plugins (pluginKey P) <;> rfl

theorem WF_synced (st : Store) (P : OpenapiService) (hwf : st.WF) :
    Store.WF
      { st with
        plugins := Function.update st.plugins (pluginKey P) (some (syncedPlugin st P)) } := by
  have h := WF_withPlugin st hwf (syncedPlugin st P)
  simp only [Store.withPlugin, syncedPlugin_key st P hwf] at h
  exact h

/-- C5: for every store and every parent, in the runs in which every call is served, a
second `createWasmPlugin` with the same parent returns the same object as the first, finds
the resource and rewrites it (one get, one update of that object), and leaves the store
as the first call left it. -/
theorem createWasmPlugin_idempotent (st : Store) (svc : OpenapiService) (hwf : st.WF) :
    ∃ w, (createWasmPlugin noFaults st svc).result = .ok w ∧
      (createWasmPlugin noFaults (createWasmPlugin noFaults st svc).store svc).result = .ok w ∧
      (createWasmPlugin noFaults (createWasmPlugin noFaults st svc).store svc).calls =
        [.getPlugin (pluginKey svc), .updatePlugin w] ∧
      (createWasmPlugin noFaults (createWasmPlugin noFaults st svc).store svc).store =
        (createWasmPlugin noFaults st svc).store := by
  obtain ⟨hr, hst⟩ := create_noFaults st svc hwf
  have hwf1 := WF_synced st svc hwf
  obtain ⟨hr2, -⟩ := create_noFaults _ svc hwf1
  obtain ⟨-, hst2, hc2⟩ := create_ok noFaults _ svc hwf1 _ hr2
  rw [syncedPlugin_fixed] at hr2 hst2 hc2
  refine ⟨syncedPlugin st svc, hr, ?_, ?_, ?_⟩
  · rw [hst]; exact hr2
  · rw [hst, hc2]
    simp
  · rw [hst, hst2]
    simp

/-- C5 on the test parent, once from the store without a child and once next to a child
somebody else made. -/
theorem createWasmPlugin_idempotent_witness :
    testStore.WF ∧ adoptStore.WF ∧
      (∃ w, (createWasmPlugin noFaults testStore testService).result = .ok w ∧
        (createWasmPlugin noFaults (createWasmPlugin noFaults testStore testService).store
            testService).result = .ok w ∧
        (createWasmPlugin noFaults (createWasmPlugin noFaults testStore testService).store
            testService).calls = [.getPlugin (pluginKey testService), .updatePlugin w] ∧
        (createWasmPlugin noFaults (createWasmPlugin noFaults testStore testService).store
            testService).store = (createWasmPlugin noFaults testStore testService).store) ∧
      (createWasmPlugin noFaults (createWasmPlugin noFaults adoptStore testService).store
          testService).result =
        .ok { foreignPlugin with spec := some (.plugin (buildSpec testService)) } :=
  ⟨WF_testStore, WF_adoptStore, createWasmPlugin_idempotent testStore testService WF_testStore,
    by decide⟩

theorem statusName_ne_name (a b : String) : a ++ "/" ++ b ≠ b := by
  intro h
  have := congrArg String.length h
  simp [String.length_append] at this
  exact absurd this.2 (by decide)

/-- C7: for every parent with a non-empty `status.wasmPluginName`, when the delete fails
with an error other than not-found, `Reconcile` returns that error wrapped as the cleanup
failure, issues only the get of the parent and the delete (no get, create or update of the
child, no status write), and leaves the store as it was. -/
theorem Reconcile_cleanup_failure_aborts (f : Faults) (st : Store) (req : NamespacedName)
    (P : OpenapiService) (e : StatusReason) (hget : st.getService f req = .ok P)
    (hs : P.Status.WasmPluginName ≠ "")
    (hdel : (st.deletePlugin f (pluginKey P)).1 = .error e) (hne : e ≠ .NotFound) :
    (Reconcile f st req).result = .error (.deleteOldWasmPlugin e) ∧
      (Reconcile f st req).calls = [.getService req, .deletePlugin (pluginKey P)] ∧
      (Reconcile f st req).store = st := by
  have hst := deletePlugin_error_store f st (pluginKey P) e hdel
  have hnf : IsNotFound e = false := by
    simp [IsNotFound, hne]
  have hc : cleanupOldWasmPlugin f st P =
      ⟨.error (.deleteOldWasmPlugin e), st, [.deletePlugin (pluginKey P)]⟩ := by
    unfold cleanupOldWasmPlugin
    rw [if_neg hs]
    show (match st.deletePlugin f (pluginKey P) with
      | (.error e, st') =>
        if !IsNotFound e then
          (⟨.error (.deleteOldWasmPlugin e), st', [.deletePlugin (pluginKey P)]⟩ : Run Unit)
        else ⟨.ok (), st', [.deletePlugin (pluginKey P)]⟩
      | (.ok _, st') => ⟨.ok (), st', [.deletePlugin (pluginKey P)]⟩) = _
    rcases hd : st.deletePlugin f (pluginKey P) with ⟨r, s'⟩
    rw [hd] at hdel hst
    simp only at hdel hst
    subst hdel hst
    simp [hnf]
  unfold Reconcile
  simp [hget, hc]

/-- C7 on the settled test parent when the delete is forbidden. -/
theorem Reconcile_cleanup_failure_aborts_witness :
    settledStore.getService (deleteFails .Forbidden) ("default", "test-openapi") =
        .ok settledService ∧
      settledService.Status.WasmPluginName ≠ "" ∧
      (Reconcile (deleteFails .Forbidden) settledStore ("default", "test-openapi")).result =
        .error (.deleteOldWasmPlugin .Forbidden) ∧
      (Reconcile (deleteFails .Forbidden) settledStore ("default", "test-openapi")).calls =
        [.getService ("default", "test-openapi"),
          .deletePlugin ("default", "path-template-filter-test-openapi")] ∧
      (Reconcile (deleteFails .Forbidden) settledStore ("default", "test-openapi")).store =
        settledStore :=
  ⟨by decide, by decide,
    Reconcile_cleanup_failure_aborts (deleteFails .Forbidden) settledStore
      ("default", "test-openapi") settledService .Forbidden (by decide) (by decide) (by decide)
      (by decide)⟩

/-- C8: `cleanupOldWasmPlugin` returns an error if and only if the parent's
`status.wasmPluginName` is non-empty and the delete of the child fails with an error other
than not-found.  With empty status it succeeds without a store call; when the child is
absent the store is left unchanged, and the call succeeds when the store serves the delete
(answering not-found). -/
theorem cleanupOldWasmPlugin_error_iff (f : Faults) (st : Store) (P : OpenapiService) :
    ((∃ err, (cleanupOldWasmPlugin f st P).result = .error err) ↔
        (P.Status.WasmPluginName ≠ "" ∧
          ∃ e, (st.deletePlugin f (pluginKey P)).1 = .error e ∧ e ≠ .NotFound)) ∧
      (P.Status.WasmPluginName = "" →
        (cleanupOldWasmPlugin f st P).result = .ok () ∧
          (cleanupOldWasmPlugin f st P).calls = [] ∧ (cleanupOldWasmPlugin f st P).store = st) ∧
      (st.plugins (pluginKey P) = none →
        (cleanupOldWasmPlugin f st P).store = st ∧
          (f.deletePlugin = none → (cleanupOldWasmPlugin f st P).result = .ok ())) := by
  have hkey : (P.Namespace, "path-template-filter-" ++ P.Name) = pluginKey P := rfl
  refine ⟨?_, ?_, ?_⟩
  · unfold cleanupOldWasmPlugin
    by_cases hs : P.Status.WasmPluginName = ""
    · simp [hs]
    · simp only [hs, if_false, hkey, ne_eq, not_false_eq_true, true_and]
      cases hf : f.deletePlugin with
      | some e =>
        cases e <;> simp [Store.deletePlugin, hf, IsNotFound]
      | none =>
        cases hp : st.plugins (pluginKey P) <;> simp [Store.deletePlugin, hf, hp, IsNotFound]
  · intro hs
    simp [cleanupOldWasmPlugin, hs]
  · intro hp
    unfold cleanupOldWasmPlugin
    by_cases hs : P.Status.WasmPluginName = ""
    · simp [hs]
    · simp only [hs, if_false, hkey]
      cases hf : f.deletePlugin with
      | some e =>
        cases e <;> simp [Store.deletePlugin, hf, IsNotFound]
      | none =>
        simp [Store.deletePlugin, hf, hp, IsNotFound]

/-- C8 on the test parent: with empty status no call is issued; with a recorded child that
is absent from the store the cleanup succeeds and the store is unchanged; with a forbidden
delete it fails. -/
theorem cleanupOldWasmPlugin_error_iff_witness :
    ((cleanupOldWasmPlugin noFaults testStore testService).result = .ok () ∧
        (cleanupOldWasmPlugin noFaults testStore testService).calls = [] ∧
        (cleanupOldWasmPlugin noFaults testStore testService).store = testStore) ∧
      ((cleanupOldWasmPlugin noFaults testStore settledService).store = testStore ∧
        (cleanupOldWasmPlugin noFaults testStore settledService).result = .ok ()) ∧
      (∃ err, (cleanupOldWasmPlugin (deleteFails .Forbidden) settledStore settledService).result =
        .error err) :=
  ⟨(cleanupOldWasmPlugin_error_iff noFaults testStore testService).2.1 (by decide),
    ⟨((cleanupOldWasmPlugin_error_iff noFaults testStore settledService).2.2 (by decide)).1,
      ((cleanupOldWasmPlugin_error_iff noFaults testStore settledService).2.2 (by decide)).2
        (by decide)⟩,
    (cleanupOldWasmPlugin_error_iff (deleteFails .Forbidden) settledStore settledService).1.2
      ⟨by decide, .Forbidden, by decide, by decide⟩⟩

theorem create_noFaults_absent (st : Store) (P : OpenapiService)
    (h : st.plugins (pluginKey P) = none) :
    (createWasmPlugin noFaults st P).result = .ok (desiredWasmPlugin P) ∧
      (createWasmPlugin noFaults st P).calls =
        [.getPlugin (pluginKey P), .createPlugin (desiredWasmPlugin P)] := by
  have h' : st.plugins (P.Namespace, "path-template-filter-" ++ P.Name) = none := h
  constructor <;>
  simp [createWasmPlugin, Store.getPlugin, Store.createPlugin, noFaults, IsNotFound,
    desiredWasmPlugin, newWasmPlugin, pluginKey, pluginName, h']

/-- C9, as the code has it: for every parent whose `status.wasmPluginName` is non-empty,
whatever it names, when the store serves the delete, `cleanupOldWasmPlugin` succeeds after
exactly one delete at the currently expected identity and leaves everything else
untouched.  A child without finalizers (or no child) leaves nothing stored there, and the
following `createWasmPlugin` does not update but creates the built child anew; a child
with finalizers stays stored, marked for deletion, and the following `createWasmPlugin`
finds it and updates it in place. -/
theorem cleanupOldWasmPlugin_deletes_expected_child (f : Faults) (st : Store)
    (P : OpenapiService) (hs : P.Status.WasmPluginName ≠ "") (hf : f.deletePlugin = none) :
    (cleanupOldWasmPlugin f st P).result = .ok () ∧
      (cleanupOldWasmPlugin f st P).calls =
        [.deletePlugin (P.Namespace, "path-template-filter-" ++ P.Name)] ∧
      (∀ k, k ≠ (P.Namespace, "path-template-filter-" ++ P.Name) →
        (cleanupOldWasmPlugin f st P).store.plugins k = st.plugins k) ∧
      (cleanupOldWasmPlugin f st P).store.services = st.services ∧
      ((st.plugins (P.Namespace, "path-template-filter-" ++ P.Name) = none ∨
          ∃ o, st.plugins (P.Namespace, "path-template-filter-" ++ P.Name) = some o ∧
            o.finalizers = []) →
        (cleanupOldWasmPlugin f st P).store.plugins
            (P.Namespace, "path-template-filter-" ++ P.Name) = none ∧
          (createWasmPlugin noFaults (cleanupOldWasmPlugin f st P).store P).result =
            .ok (desiredWasmPlugin P) ∧
          (createWasmPlugin noFaults (cleanupOldWasmPlugin f st P).store P).calls =
            [.getPlugin (P.Namespace, "path-template-filter-" ++ P.Name),
              .createPlugin (desiredWasmPlugin P)]) ∧
      (∀ o, st.WF → st.plugins (P.Namespace, "path-template-filter-" ++ P.Name) = some o →
        o.finalizers ≠ [] →
        (cleanupOldWasmPlugin f st P).store.plugins
            (P.Namespace, "path-template-filter-" ++ P.Name) =
            some { o with deletionTimestamp := true } ∧
          (createWasmPlugin noFaults (cleanupOldWasmPlugin f st P).store P).result =
            .ok { o with deletionTimestamp := true, spec := some (.plugin (buildSpec P)) } ∧
          (createWasmPlugin noFaults (cleanupOldWasmPlugin f st P).store P).calls =
            [.getPlugin (P.Namespace, "path-template-filter-" ++ P.Name),
              .updatePlugin
                { o with deletionTimestamp := true, spec := some (.plugin (buildSpec P)) }] ∧
          (createWasmPlugin noFaults (cleanupOldWasmPlugin f st P).store P).store.plugins
            (P.Namespace, "path-template-filter-" ++ P.Name) =
            some { o with deletionTimestamp := true, spec := some (.plugin (buildSpec P)) }) := by
  have hkey : (P.Namespace, "path-template-filter-" ++ P.Name) = pluginKey P := rfl
  rw [cleanup_served f st P hs hf, hkey]
  refine ⟨rfl, rfl, fun k hk => Function.update_noteq hk _ _, rfl, ?_, ?_⟩
  · intro h
    have hnone : (st.afterCleanup P).plugins (pluginKey P) = none := by
      show Function.update st.plugins (pluginKey P) (st.afterDelete (pluginKey P))
        (pluginKey P) = none
      rw [Function.update_same]
      rcases h with h | ⟨o, ho, hfin⟩
      · simp [Store.afterDelete, h]
      · simp [Store.afterDelete, ho, hfin]
    exact ⟨hnone, create_noFaults_absent _ P hnone⟩
  · intro o hwf ho hfin
    have hsome : (st.afterCleanup P).plugins (pluginKey P) =
        some { o with deletionTimestamp := true } := by
      show Function.update st.plugins (pluginKey P) (st.afterDelete (pluginKey P))
        (pluginKey P) = _
      rw [Function.update_same]
      simp [Store.afterDelete, ho, hfin]
    have hwf1 := WF_afterCleanup st hwf P
    obtain ⟨hr, -⟩ := create_noFaults _ P hwf1
    obtain ⟨-, hst, hcalls⟩ := create_ok noFaults _ P hwf1 _ hr
    have hsync : syncedPlugin (st.afterCleanup P) P =
        { o with deletionTimestamp := true, spec := some (.plugin (buildSpec P)) } := by
      simp [syncedPlugin, hsome]
    rw [hsync] at hr hst hcalls
    refine ⟨hsome, hr, ?_, ?_⟩
    · rw [hcalls]
      simp [hsome]
    · rw [hst]
      exact Function.update_same _ _ _

/-- C9 as amended, on the settled test parent, whose status names the expected child: next
to the child a reconciliation made the delete removes it and the synchronization creates it
anew; next to a child with a finalizer the delete is issued as well, the child stays and is
updated in place. -/
theorem cleanupOldWasmPlugin_deletes_expected_child_witness :
    settledService.Status.WasmPluginName ≠ "" ∧ noFaults.deletePlugin = none ∧
      (cleanupOldWasmPlugin noFaults settledStore settledService).calls =
        [.deletePlugin
          (settledService.Namespace, "path-template-filter-" ++ settledService.Name)] ∧
      ((cleanupOldWasmPlugin noFaults settledStore settledService).store.plugins
            (settledService.Namespace, "path-template-filter-" ++ settledService.Name) = none ∧
          (createWasmPlugin noFaults
              (cleanupOldWasmPlugin noFaults settledStore settledService).store
              settledService).result = .ok (desiredWasmPlugin settledService) ∧
          (createWasmPlugin noFaults
              (cleanupOldWasmPlugin noFaults settledStore settledService).store
              settledService).calls =
            [.getPlugin
                (settledService.Namespace, "path-template-filter-" ++ settledService.Name),
              .createPlugin (desiredWasmPlugin settledService)]) ∧
      (cleanupOldWasmPlugin noFaults guardedSettledStore settledService).calls =
        [.deletePlugin
          (settledService.Namespace, "path-template-filter-" ++ settledService.Name)] ∧
      (createWasmPlugin noFaults
          (cleanupOldWasmPlugin noFaults guardedSettledStore settledService).store
          settledService).calls =
        [.getPlugin (settledService.Namespace, "path-template-filter-" ++ settledService.Name),
          .updatePlugin
            { guardedPlugin with
              deletionTimestamp := true
              spec := some (.plugin (buildSpec settledService)) }] :=
  ⟨by decide, rfl,
    (cleanupOldWasmPlugin_deletes_expected_child noFaults settledStore settledService
      (by decide) rfl).2.1,
    (cleanupOldWasmPlugin_deletes_expected_child noFaults settledStore settledService
      (by decide) rfl).2.2.2.2.1 (Or.inr ⟨desiredWasmPlugin settledService, by decide, rfl⟩),
    (cleanupOldWasmPlugin_deletes_expected_child noFaults guardedSettledStore settledService
      (by decide) rfl).2.1,
    ((cleanupOldWasmPlugin_deletes_expected_child noFaults guardedSettledStore settledService
      (by decide) rfl).2.2.2.2.2 guardedPlugin WF_guardedSettledStore (by decide)
      (by decide)).2.2.1⟩

/-- C9 fails as stated: the status of the settled test parent names the currently
expected child, which is in the store (without finalizers); `cleanupOldWasmPlugin`
nevertheless issues the delete, and the child is gone afterwards. -/
theorem cleanupOldWasmPlugin_deletes_matching_child :
    settledService.Status.WasmPluginName =
        settledService.Namespace ++ "/" ++ ("path-template-filter-" ++ settledService.Name) ∧
      settledStore.plugins ("default", "path-template-filter-test-openapi") =
        some (desiredWasmPlugin settledService) ∧
      (cleanupOldWasmPlugin noFaults settledStore settledService).calls =
        [.deletePlugin ("default", "path-template-filter-test-openapi")] ∧
      (cleanupOldWasmPlugin noFaults settledStore settledService).store.plugins
        ("default", "path-template-filter-test-openapi") = none :=
  ⟨by decide, by decide, by decide, by decide⟩

/-- C10, as the code has it: whatever the failures, after a `Reconcile` that fetched the
parent `P` and returned no error, the stored status of `P` is `P.Namespace` + `/` +
`path-template-filter-` + `P.Name`: namespace and name of the child, which is never the
bare name `path-template-filter-` + `P.Name`. -/
theorem Reconcile_status_is_namespaced_name (f : Faults) (st : Store) (req : NamespacedName)
    (P : OpenapiService) (hwf : st.WF) (hget : st.getService f req = .ok P)
    (hok : (Reconcile f st req).result = .ok ()) :
    ∃ P', (Reconcile f st req).store.services (P.Namespace, P.Name) = some P' ∧
      P'.Status.WasmPluginName = P.Namespace ++ "/" ++ ("path-template-filter-" ++ P.Name) ∧
      P'.Status.WasmPluginName ≠ "path-template-filter-" ++ P.Name := by
  obtain ⟨hcwf, hcs⟩ := cleanup_store_WF f st P hwf
  unfold Reconcile at hok ⊢
  simp only [hget] at hok ⊢
  cases hc : (cleanupOldWasmPlugin f st P).result with
  | error err => simp [hc] at hok
  | ok u =>
    simp only [hc] at hok ⊢
    cases hw : (createWasmPlugin f (cleanupOldWasmPlugin f st P).store P).result with
    | error err => simp [hw] at hok
    | ok w =>
      obtain ⟨hw1, hw2, -⟩ := create_ok f _ P hcwf w hw
      have hk := syncedPlugin_key _ P hcwf
      rw [← hw1] at hk
      have hk1 : w.Namespace = P.Namespace := congrArg Prod.fst hk
      have hk2 : w.Name = pluginName P := congrArg Prod.snd hk
      simp only [hw, hk1, hk2] at hok ⊢
      unfold Store.updateStatus at hok ⊢
      cases hu : f.updateStatus with
      | some e => simp [hu] at hok
      | none =>
        simp only [hu] at hok ⊢
        cases hs : (createWasmPlugin f (cleanupOldWasmPlugin f st P).store P).store.services
            (P.Namespace, P.Name) with
        | none => simp [hs] at hok
        | some cur =>
          simp only [hs]
          exact ⟨_, Function.update_same _ _ _, rfl, statusName_ne_name _ _⟩

/-- C10 as amended, on the controller test. -/
theorem Reconcile_status_is_namespaced_name_witness :
    testStore.WF ∧ testStore.getService noFaults ("default", "test-openapi") = .ok testService ∧
      (Reconcile noFaults testStore ("default", "test-openapi")).result = .ok () ∧
      ∃ P', (Reconcile noFaults testStore ("default", "test-openapi")).store.services
          (testService.Namespace, testService.Name) = some P' ∧
        P'.Status.WasmPluginName =
          testService.Namespace ++ "/" ++ ("path-template-filter-" ++ testService.Name) ∧
        P'.Status.WasmPluginName ≠ "path-template-filter-" ++ testService.Name :=
  ⟨WF_testStore, by decide, by decide,
    Reconcile_status_is_namespaced_name noFaults testStore ("default", "test-openapi")
      testService WF_testStore (by decide) (by decide)⟩

/-- C10 fails as stated: after the successful `Reconcile` of the test parent its status is
`default/path-template-filter-test-openapi`, as the controller test expects, and not
`path-template-filter-test-openapi`. -/
theorem Reconcile_status_not_bare_name :
    (Reconcile noFaults testStore ("default", "test-openapi")).result = .ok () ∧
      ((Reconcile noFaults testStore ("default", "test-openapi")).store.services
          ("default", "test-openapi")).map (fun s => s.Status.WasmPluginName) =
        some "default/path-template-filter-test-openapi" ∧
      ((Reconcile noFaults testStore ("default", "test-openapi")).store.services
          ("default", "test-openapi")).map (fun s => s.Status.WasmPluginName) ≠
        some ("path-template-filter-" ++ testService.Name) :=
  ⟨by decide, by decide, by decide⟩

end Operator
